import Mathlib

set_option maxRecDepth 40000

/-!
# Shamsi calendar tool — verification of the conversion core

Shallow embedding of `scal.py`: the Shamsi (Jalali) leap-year rule, the two
calendar conversion functions, the month metadata helpers, and the calendar
renderer's cell layout.  Python integers are modelled as `Int`; Python's `%`
on a positive modulus agrees with Lean's `Int.emod` (both give the
non-negative floor-division remainder).  Python list indexing that can raise
`IndexError`, and the `raise ValueError` branch, are modelled with `Option`.
The `while` loops that walk months are modelled by fuel recursion; fuel 13 is
enough to reach either the `break` or the out-of-range index that Python
would hit, so the fuel-exhaustion branch is unreachable from the entry month.
-/

/-- `is_shamsi_leap_year` from `scal.py`: leap iff `(year + 2346) % 33` is one
of the eight residues of the 33-year cycle. -/
def is_shamsi_leap_year (shamsi_year : Int) : Bool :=
  let rem := (shamsi_year + 2346) % 33
  rem == 1 || rem == 5 || rem == 9 || rem == 13 || rem == 17 || rem == 21 ||
    rem == 26 || rem == 30

/-- The Gregorian leap-year test written inline (three times) in `scal.py`:
`(gy % 4 == 0 and gy % 100 != 0) or (gy % 400 == 0)`. -/
def is_gregorian_leap_year (gy : Int) : Bool :=
  (gy % 4 == 0 && gy % 100 != 0) || gy % 400 == 0

/-- `g_days_in_month` table (index 0 is a dummy). -/
def g_days_in_month : List Int := [0, 31, 28, 31, 30, 31, 30, 31, 31, 30, 31, 30, 31]

/-- `j_days_in_month` table (index 0 is a dummy); the source mutates entry 12
to 30 for leap years before summing, modelled by the `leap` parameter. -/
def j_days_in_month (leap : Bool) : List Int :=
  [0, 31, 31, 31, 31, 31, 31, 30, 30, 30, 30, 30, if leap then 30 else 29]

/-- `sum(j_days_in_month[1:m+1])` for the (possibly leap-adjusted) Shamsi
table: total days in months `1..mi`. -/
def j_cum (leap : Bool) (mi : Int) : Int :=
  (((j_days_in_month leap).drop 1).take mi.toNat).sum

/-- `days_passed_gregorian` as computed at the top of `gregorian_to_shamsi`:
`sum(g_days_in_month[1:gm]) + gd`, plus 1 when `gm > 2` in a Gregorian leap
year. -/
def g_doy (leap : Bool) (gm gd : Int) : Int :=
  ((g_days_in_month.drop 1).take (gm - 1).toNat).sum + gd +
    (if gm > 2 && leap then 1 else 0)

/-- The `while total_days_gregorian > 0` loop of `shamsi_to_gregorian`:
walks Gregorian months (February adjusted to 29 in leap years) until the
remaining day count fits.  `none` models the `IndexError` Python raises when
the month counter runs past the table. -/
def gregMonthWalk (leap : Bool) : Nat → Int → Int → Option (Int × Int)
  | 0, _, _ => none
  | fuel + 1, gm, total =>
    if total > 0 then
      match g_days_in_month.get? gm.toNat with
      | none => none
      | some len0 =>
        let len := if gm == 2 && leap then 29 else len0
        if total ≤ len then some (gm, total)
        else gregMonthWalk leap fuel (gm + 1) (total - len)
    else some (gm, 0)

/-- The `while days_passed_shamsi > 0` loop of `gregorian_to_shamsi`: walks
Shamsi months (month 12 adjusted to 30 in Shamsi leap years). -/
def shamsiMonthWalk (leap : Bool) : Nat → Int → Int → Option (Int × Int)
  | 0, _, _ => none
  | fuel + 1, jm, dps =>
    if dps > 0 then
      match (j_days_in_month false).get? jm.toNat with
      | none => none
      | some len0 =>
        let len := if jm == 12 && leap then 30 else len0
        if dps ≤ len then some (jm, dps)
        else shamsiMonthWalk leap fuel (jm + 1) (dps - len)
    else some (jm, 0)

/-- `shamsi_to_gregorian` from `scal.py`. -/
def shamsi_to_gregorian (shamsi_year shamsi_month shamsi_day : Int) :
    Option (Int × Int × Int) :=
  let days_passed_shamsi :=
    j_cum (is_shamsi_leap_year shamsi_year) (shamsi_month - 1) + shamsi_day
  let gy := shamsi_year + 621
  let g_day_of_year_new_year : Int :=
    if is_shamsi_leap_year (shamsi_year - 1) then 80 else 79
  let total_days_gregorian := g_day_of_year_new_year + days_passed_shamsi
  let g_year_length : Int := 365 + (if is_gregorian_leap_year gy then 1 else 0)
  let gy2 := if total_days_gregorian > g_year_length then gy + 1 else gy
  let total2 := if total_days_gregorian > g_year_length
    then total_days_gregorian - g_year_length else total_days_gregorian
  (gregMonthWalk (is_gregorian_leap_year gy2) 13 1 total2).map fun p => (gy2, p.1, p.2)

/-- `gregorian_to_shamsi` from `scal.py`. -/
def gregorian_to_shamsi (gregorian_year gregorian_month gregorian_day : Int) :
    Option (Int × Int × Int) :=
  let days_passed_gregorian :=
    g_doy (is_gregorian_leap_year gregorian_year) gregorian_month gregorian_day
  let jy := if days_passed_gregorian < 80 then gregorian_year - 621 - 1
    else gregorian_year - 621
  let g_day_of_year_new_year : Int :=
    if is_shamsi_leap_year (jy - 1) then 80 else 79
  let days_passed_shamsi := days_passed_gregorian - g_day_of_year_new_year
  let dps2 := if days_passed_shamsi < 1 then
      days_passed_shamsi + (if is_shamsi_leap_year jy then 366 else 365)
    else days_passed_shamsi
  (shamsiMonthWalk (is_shamsi_leap_year jy) 13 1 dps2).map fun p => (jy, p.1, p.2)

/-- The month-name table of `get_shamsi_month_name` (index 0 is a dummy empty
string). -/
def shamsi_month_names : List String :=
  ["", "Farvardin", "Ordibehesht", "Khordad", "Tir", "Mordad", "Shahrivar",
   "Mehr", "Aban", "Azar", "Dey", "Bahman", "Esfand"]

/-- Python list indexing `xs[i]`: a non-negative index reads from the front,
a negative index `-len ≤ i ≤ -1` reads from the end, anything else raises
`IndexError` (modelled as `none`). -/
def pyIndex (xs : List String) (i : Int) : Option String :=
  if 0 ≤ i then xs.get? i.toNat
  else if -(xs.length : Int) ≤ i then xs.get? (i + xs.length).toNat
  else none

/-- `get_shamsi_month_name` from `scal.py`: a plain Python list index. -/
def get_shamsi_month_name (month_number : Int) : Option String :=
  pyIndex shamsi_month_names month_number

/-- `get_days_in_shamsi_month` from `scal.py`; `none` models the
`raise ValueError("Invalid Shamsi month number.")` branch. -/
def get_days_in_shamsi_month (shamsi_year shamsi_month : Int) : Option Int :=
  if 1 ≤ shamsi_month ∧ shamsi_month ≤ 6 then some 31
  else if 7 ≤ shamsi_month ∧ shamsi_month ≤ 11 then some 30
  else if shamsi_month = 12 then
    some (if is_shamsi_leap_year shamsi_year then 30 else 29)
  else none

/-- Effective Gregorian month length used by the conversion walk: the table
entry, with February adjusted to 29 in leap years. -/
def g_month_len (leap : Bool) (m : Int) : Int :=
  if m == 2 && leap then 29 else g_days_in_month.getD m.toNat 0

/-- Gregorian days-in-month for a concrete year (the validity notion for
Gregorian dates). -/
def gregorian_days_in_month (y m : Int) : Int :=
  g_month_len (is_gregorian_leap_year y) m

/-- Effective Shamsi month length used by the conversion walk: the base table
entry, with month 12 adjusted to 30 in Shamsi leap years. -/
def j_month_len (leap : Bool) (m : Int) : Int :=
  if m == 12 && leap then 30 else (j_days_in_month false).getD m.toNat 0

/-! ## Helper abbreviations for the proofs -/

/-- `1` for `true`, `0` for `false`. -/
def biB (b : Bool) : Int := if b then 1 else 0

/-- `g_day_of_year_new_year` as computed in both conversion functions for a
Shamsi year `y`: the Gregorian day-of-year offset of that year's new year. -/
def newYearOffset (y : Int) : Int := if is_shamsi_leap_year (y - 1) then 80 else 79

/-- Length of a Gregorian year. -/
def gregYearLen (gy : Int) : Int := 365 + (if is_gregorian_leap_year gy then 1 else 0)

/-- Length of a Shamsi year under the source's leap rule. -/
def shamsiYearLen (y : Int) : Int := 365 + biB (is_shamsi_leap_year y)

/-! ## Finite checks for the month walks, discharged by `decide` -/

/-- Boolean soundness check for the Gregorian month walk at day-of-year `t`. -/
def gwCheck (b : Bool) (t : Int) : Bool :=
  decide (365 + biB b < t) ||
  match gregMonthWalk b 13 1 t with
  | some (gm, gd) =>
    decide (1 ≤ gm ∧ gm ≤ 12 ∧ 1 ≤ gd ∧ gd ≤ g_month_len b gm ∧ g_doy b gm gd = t)
  | none => false

/-- Boolean soundness check for the Shamsi month walk at day-of-year `t`. -/
def jwCheck (b : Bool) (t : Int) : Bool :=
  decide (365 + biB b < t) ||
  match shamsiMonthWalk b 13 1 t with
  | some (jm, jd) =>
    decide (1 ≤ jm ∧ jm ≤ 12 ∧ 1 ≤ jd ∧ jd ≤ j_month_len b jm ∧
      j_cum b (jm - 1) + jd = t)
  | none => false

/-- Boolean inversion check for the Gregorian month walk at a valid date. -/
def gwInvCheck (b : Bool) (gm gd : Int) : Bool :=
  decide (g_month_len b gm < gd) ||
  decide (gregMonthWalk b 13 1 (g_doy b gm gd) = some (gm, gd))

/-- Boolean inversion check for the Shamsi month walk at a valid date. -/
def jwInvCheck (b : Bool) (jm jd : Int) : Bool :=
  decide (j_month_len b jm < jd) ||
  decide (shamsiMonthWalk b 13 1 (j_cum b (jm - 1) + jd) = some (jm, jd))

/-- The leap test as a function of the 33-cycle residue. -/
def leap_res (r : Int) : Bool :=
  r == 1 || r == 5 || r == 9 || r == 13 || r == 17 || r == 21 || r == 26 || r == 30


/-- Modelled from the spec: `datetime.date.weekday()` from the Python standard
library (not part of this repository) — the ISO weekday convention
Monday = 0 … Sunday = 6 named in the spec, computed from the proleptic
Gregorian rata-die day number (0001-01-01, rata die 1, was a Monday).
Python's floor division is `Int.fdiv`. -/
def rata_die (y m d : Int) : Int :=
  365 * (y - 1) + (y - 1).fdiv 4 - (y - 1).fdiv 100 + (y - 1).fdiv 400 +
    g_doy (is_gregorian_leap_year y) m d

/-- Modelled from the spec: the ISO weekday (Monday = 0 … Sunday = 6) of a
Gregorian date, as returned by `datetime.date.weekday()`. -/
def date_weekday (y m d : Int) : Int := (rata_die y m d - 1) % 7

/-- One cell of the rendered month grid. -/
inductive Cell where
  | blank : Cell
  | day (n : Int) (highlighted : Bool) : Cell
deriving DecidableEq

/-- The cell layout produced by `print_shamsi_calendar` in `scal.py`:
`leading_spaces` blank cells followed by the day cells `1..num_days`, the
cell equal to `current_shamsi_day` (when given) carrying the highlight
marker.  The header line and the line breaks are presentation only and are
not modelled; failures of the helpers it calls are propagated as `none`. -/
def print_shamsi_calendar (year month : Int) (current_shamsi_day : Option Int) :
    Option (List Cell) :=
  match get_shamsi_month_name month with
  | none => none
  | some _ =>
    match shamsi_to_gregorian year month 1 with
    | none => none
    | some (gy, gm, gd) =>
      let leading_spaces := (date_weekday gy gm gd + 2) % 7
      match get_days_in_shamsi_month year month with
      | none => none
      | some num_days =>
        some (List.replicate leading_spaces.toNat Cell.blank ++
          (List.range num_days.toNat).map fun i : Nat =>
            Cell.day ((i : Int) + 1)
              (match current_shamsi_day with
               | some h => (i : Int) + 1 == h
               | none => false))

/-- Number of leading blank cells the renderer emits before day 1. -/
def leadingBlankCount (cells : List Cell) : Nat :=
  (cells.takeWhile fun c => c == Cell.blank).length

/-- Number of rendered day cells carrying the highlight marker. -/
def highlightCount (cells : List Cell) : Nat :=
  cells.countP fun c =>
    match c with
    | Cell.day _ true => true
    | _ => false

/-! ## Leap-rule characterizations -/

theorem leap_iff (y : Int) : is_shamsi_leap_year y = true ↔
    ((y + 2346) % 33 = 1 ∨ (y + 2346) % 33 = 5 ∨ (y + 2346) % 33 = 9 ∨
     (y + 2346) % 33 = 13 ∨ (y + 2346) % 33 = 17 ∨ (y + 2346) % 33 = 21 ∨
     (y + 2346) % 33 = 26 ∨ (y + 2346) % 33 = 30) := by
  simp only [is_shamsi_leap_year, Bool.or_eq_true, beq_iff_eq]
  tauto

theorem gleap_iff (y : Int) : is_gregorian_leap_year y = true ↔
    ((y % 4 = 0 ∧ y % 100 ≠ 0) ∨ y % 400 = 0) := by
  simp [is_gregorian_leap_year]

/-- No two consecutive Shamsi years are both leap under the 33-cycle rule. -/
theorem not_leap_succ (y : Int) :
    ¬(is_shamsi_leap_year y = true ∧ is_shamsi_leap_year (y + 1) = true) := by
  rw [leap_iff, leap_iff]
  omega

theorem gregWalk_sound {b : Bool} {t : Int} (h1 : 1 ≤ t) (h2 : t ≤ 365 + biB b) :
    ∃ gm gd, gregMonthWalk b 13 1 t = some (gm, gd) ∧
      1 ≤ gm ∧ gm ≤ 12 ∧ 1 ≤ gd ∧ gd ≤ g_month_len b gm ∧ g_doy b gm gd = t := by
  have hall : ∀ n ∈ List.range 366, gwCheck b ((n : Int) + 1) = true := by
    cases b <;> decide
  have hbi : biB b ≤ 1 := by cases b <;> simp [biB]
  have hn : (t - 1).toNat ∈ List.range 366 := by
    rw [List.mem_range]
    omega
  have hc := hall _ hn
  have ht : ((t - 1).toNat : Int) + 1 = t := by omega
  rw [ht] at hc
  unfold gwCheck at hc
  rcases hw : gregMonthWalk b 13 1 t with _ | ⟨gm, gd⟩ <;> rw [hw] at hc <;>
    simp at hc
  · omega
  · rcases hc with hc | hc
    · omega
    · exact ⟨gm, gd, rfl, hc.1, hc.2.1, hc.2.2.1, hc.2.2.2.1, hc.2.2.2.2⟩

theorem shamsiWalk_sound {b : Bool} {t : Int} (h1 : 1 ≤ t) (h2 : t ≤ 365 + biB b) :
    ∃ jm jd, shamsiMonthWalk b 13 1 t = some (jm, jd) ∧
      1 ≤ jm ∧ jm ≤ 12 ∧ 1 ≤ jd ∧ jd ≤ j_month_len b jm ∧
      j_cum b (jm - 1) + jd = t := by
  have hall : ∀ n ∈ List.range 366, jwCheck b ((n : Int) + 1) = true := by
    cases b <;> decide
  have hbi : biB b ≤ 1 := by cases b <;> simp [biB]
  have hn : (t - 1).toNat ∈ List.range 366 := by
    rw [List.mem_range]
    omega
  have hc := hall _ hn
  have ht : ((t - 1).toNat : Int) + 1 = t := by omega
  rw [ht] at hc
  unfold jwCheck at hc
  rcases hw : shamsiMonthWalk b 13 1 t with _ | ⟨jm, jd⟩ <;> rw [hw] at hc <;>
    simp at hc
  · omega
  · rcases hc with hc | hc
    · omega
    · exact ⟨jm, jd, rfl, hc.1, hc.2.1, hc.2.2.1, hc.2.2.2.1, hc.2.2.2.2⟩

theorem gregWalk_inv {b : Bool} {gm gd : Int} (h1 : 1 ≤ gm) (h2 : gm ≤ 12)
    (h3 : 1 ≤ gd) (h4 : gd ≤ g_month_len b gm) :
    gregMonthWalk b 13 1 (g_doy b gm gd) = some (gm, gd) := by
  have hall : ∀ i ∈ List.range 12, ∀ j ∈ List.range 31,
      gwInvCheck b ((i : Int) + 1) ((j : Int) + 1) = true := by
    cases b <;> decide
  have hlen : g_month_len b gm ≤ 31 := by
    have : ∀ i ∈ List.range 12, g_month_len b ((i : Int) + 1) ≤ 31 := by
      cases b <;> decide
    have hi : (gm - 1).toNat ∈ List.range 12 := by rw [List.mem_range]; omega
    have := this _ hi
    have he : ((gm - 1).toNat : Int) + 1 = gm := by omega
    rwa [he] at this
  have hi : (gm - 1).toNat ∈ List.range 12 := by rw [List.mem_range]; omega
  have hj : (gd - 1).toNat ∈ List.range 31 := by rw [List.mem_range]; omega
  have hc := hall _ hi _ hj
  have he1 : ((gm - 1).toNat : Int) + 1 = gm := by omega
  have he2 : ((gd - 1).toNat : Int) + 1 = gd := by omega
  rw [he1, he2] at hc
  unfold gwInvCheck at hc
  simp only [Bool.or_eq_true, decide_eq_true_eq] at hc
  rcases hc with hc | hc
  · omega
  · exact hc

theorem shamsiWalk_inv {b : Bool} {jm jd : Int} (h1 : 1 ≤ jm) (h2 : jm ≤ 12)
    (h3 : 1 ≤ jd) (h4 : jd ≤ j_month_len b jm) :
    shamsiMonthWalk b 13 1 (j_cum b (jm - 1) + jd) = some (jm, jd) := by
  have hall : ∀ i ∈ List.range 12, ∀ j ∈ List.range 31,
      jwInvCheck b ((i : Int) + 1) ((j : Int) + 1) = true := by
    cases b <;> decide
  have hi : (jm - 1).toNat ∈ List.range 12 := by rw [List.mem_range]; omega
  have hlen : j_month_len b jm ≤ 31 := by
    have : ∀ i ∈ List.range 12, j_month_len b ((i : Int) + 1) ≤ 31 := by
      cases b <;> decide
    have := this _ hi
    have he : ((jm - 1).toNat : Int) + 1 = jm := by omega
    rwa [he] at this
  have hj : (jd - 1).toNat ∈ List.range 31 := by rw [List.mem_range]; omega
  have hc := hall _ hi _ hj
  have he1 : ((jm - 1).toNat : Int) + 1 = jm := by omega
  have he2 : ((jd - 1).toNat : Int) + 1 = jd := by omega
  rw [he1, he2] at hc
  unfold jwInvCheck at hc
  simp only [Bool.or_eq_true, decide_eq_true_eq] at hc
  rcases hc with hc | hc
  · omega
  · exact hc

/-! ## Bounds on cumulative day counts -/

theorem biB_bounds (b : Bool) : 0 ≤ biB b ∧ biB b ≤ 1 := by cases b <;> simp [biB]

theorem j_cum_bounds {b : Bool} {m : Int} (h1 : 1 ≤ m) (h2 : m ≤ 12) :
    0 ≤ j_cum b (m - 1) ∧ j_cum b (m - 1) + j_month_len b m ≤ 365 + biB b := by
  have hall : ∀ i ∈ List.range 12,
      0 ≤ j_cum b (i : Int) ∧
      j_cum b (i : Int) + j_month_len b ((i : Int) + 1) ≤ 365 + biB b := by
    cases b <;> decide
  have hi : (m - 1).toNat ∈ List.range 12 := by rw [List.mem_range]; omega
  have hc := hall _ hi
  have he : (((m - 1).toNat : Nat) : Int) = m - 1 := by omega
  rw [he] at hc
  rwa [show m - 1 + 1 = m from by ring] at hc

theorem g_doy_zero (b : Bool) (gm gd : Int) : g_doy b gm gd = g_doy b gm 0 + gd := by
  unfold g_doy
  ring

theorem g_doy_bounds {b : Bool} {m : Int} (h1 : 1 ≤ m) (h2 : m ≤ 12) :
    0 ≤ g_doy b m 0 ∧ g_doy b m 0 + g_month_len b m ≤ 365 + biB b := by
  have hall : ∀ i ∈ List.range 12,
      0 ≤ g_doy b ((i : Int) + 1) 0 ∧
      g_doy b ((i : Int) + 1) 0 + g_month_len b ((i : Int) + 1) ≤ 365 + biB b := by
    cases b <;> decide
  have hi : (m - 1).toNat ∈ List.range 12 := by rw [List.mem_range]; omega
  have hc := hall _ hi
  have he : (((m - 1).toNat : Nat) : Int) = m - 1 := by omega
  rw [he] at hc
  rwa [show m - 1 + 1 = m from by ring] at hc

/-! ## Branch-free reformulations of the two conversion functions -/

theorem s2g_eq (y m d : Int) :
    shamsi_to_gregorian y m d =
      (gregMonthWalk
        (is_gregorian_leap_year
          (if gregYearLen (y + 621) <
              newYearOffset y + (j_cum (is_shamsi_leap_year y) (m - 1) + d)
           then y + 622 else y + 621)) 13 1
        (if gregYearLen (y + 621) <
            newYearOffset y + (j_cum (is_shamsi_leap_year y) (m - 1) + d)
         then newYearOffset y + (j_cum (is_shamsi_leap_year y) (m - 1) + d) -
              gregYearLen (y + 621)
         else newYearOffset y + (j_cum (is_shamsi_leap_year y) (m - 1) + d))).map
        fun p =>
          ((if gregYearLen (y + 621) <
               newYearOffset y + (j_cum (is_shamsi_leap_year y) (m - 1) + d)
            then y + 622 else y + 621), p.1, p.2) := by
  simp only [shamsi_to_gregorian, newYearOffset, gregYearLen, gt_iff_lt]
  split_ifs <;> simp [show y + 621 + 1 = y + 622 from by ring]

theorem g2s_eq (gy gm gd : Int) :
    gregorian_to_shamsi gy gm gd =
      (shamsiMonthWalk
        (is_shamsi_leap_year
          (if g_doy (is_gregorian_leap_year gy) gm gd < 80 then gy - 622 else gy - 621))
        13 1
        (if g_doy (is_gregorian_leap_year gy) gm gd -
            newYearOffset
              (if g_doy (is_gregorian_leap_year gy) gm gd < 80 then gy - 622 else gy - 621) < 1
         then g_doy (is_gregorian_leap_year gy) gm gd -
              newYearOffset
                (if g_doy (is_gregorian_leap_year gy) gm gd < 80 then gy - 622 else gy - 621) +
              shamsiYearLen
                (if g_doy (is_gregorian_leap_year gy) gm gd < 80 then gy - 622 else gy - 621)
         else g_doy (is_gregorian_leap_year gy) gm gd -
              newYearOffset
                (if g_doy (is_gregorian_leap_year gy) gm gd < 80 then gy - 622 else gy - 621))).map
        fun p =>
          ((if g_doy (is_gregorian_leap_year gy) gm gd < 80 then gy - 622 else gy - 621),
            p.1, p.2) := by
  simp only [gregorian_to_shamsi, newYearOffset, shamsiYearLen, biB]
  rw [show gy - 621 - 1 = gy - 622 from by ring]
  split_ifs <;> norm_num

/-! ## Output characterization of the two conversions -/

theorem s2g_strong {y m d : Int} (hm1 : 1 ≤ m) (hm2 : m ≤ 12) (hd1 : 1 ≤ d)
    (hd2 : d ≤ j_month_len (is_shamsi_leap_year y) m) :
    ∃ gy gm gd, shamsi_to_gregorian y m d = some (gy, gm, gd) ∧
      1 ≤ gm ∧ gm ≤ 12 ∧ 1 ≤ gd ∧ gd ≤ g_month_len (is_gregorian_leap_year gy) gm ∧
      ((newYearOffset y + (j_cum (is_shamsi_leap_year y) (m - 1) + d) ≤
          gregYearLen (y + 621) ∧
        gy = y + 621 ∧
        g_doy (is_gregorian_leap_year gy) gm gd =
          newYearOffset y + (j_cum (is_shamsi_leap_year y) (m - 1) + d)) ∨
       (gregYearLen (y + 621) <
          newYearOffset y + (j_cum (is_shamsi_leap_year y) (m - 1) + d) ∧
        gy = y + 622 ∧
        g_doy (is_gregorian_leap_year gy) gm gd =
          newYearOffset y + (j_cum (is_shamsi_leap_year y) (m - 1) + d) -
            gregYearLen (y + 621))) := by
  have hcum := j_cum_bounds (b := is_shamsi_leap_year y) hm1 hm2
  have hnls := not_leap_succ (y - 1)
  rw [show y - 1 + 1 = y from by ring] at hnls
  have hoff : newYearOffset y = 79 + biB (is_shamsi_leap_year (y - 1)) := by
    unfold newYearOffset biB
    split_ifs <;> norm_num
  have hglen : gregYearLen (y + 621) = 365 + biB (is_gregorian_leap_year (y + 621)) := rfl
  have hbp := biB_bounds (is_shamsi_leap_year (y - 1))
  have hbb := biB_bounds (is_shamsi_leap_year y)
  have hgb := biB_bounds (is_gregorian_leap_year (y + 621))
  have hgb2 := biB_bounds (is_gregorian_leap_year (y + 622))
  have hsum : biB (is_shamsi_leap_year (y - 1)) + biB (is_shamsi_leap_year y) ≤ 1 := by
    rcases hx : is_shamsi_leap_year (y - 1) <;> rcases hz : is_shamsi_leap_year y <;>
      simp_all [biB]
  rw [s2g_eq]
  by_cases hw : gregYearLen (y + 621) <
      newYearOffset y + (j_cum (is_shamsi_leap_year y) (m - 1) + d)
  · rw [if_pos hw, if_pos hw]
    obtain ⟨gm, gd, hwalk, h1, h2, h3, h4, h5⟩ :=
      gregWalk_sound (b := is_gregorian_leap_year (y + 622))
        (t := newYearOffset y + (j_cum (is_shamsi_leap_year y) (m - 1) + d) -
          gregYearLen (y + 621)) (by omega) (by omega)
    refine ⟨y + 622, gm, gd, ?_, h1, h2, h3, h4, Or.inr ⟨hw, rfl, h5⟩⟩
    rw [hwalk]
    rfl
  · rw [if_neg hw, if_neg hw]
    obtain ⟨gm, gd, hwalk, h1, h2, h3, h4, h5⟩ :=
      gregWalk_sound (b := is_gregorian_leap_year (y + 621))
        (t := newYearOffset y + (j_cum (is_shamsi_leap_year y) (m - 1) + d))
        (by omega) (by omega)
    refine ⟨y + 621, gm, gd, ?_, h1, h2, h3, h4, Or.inl ⟨by omega, rfl, h5⟩⟩
    rw [hwalk]
    rfl

theorem g2s_strong {gy gm gd : Int} (hm1 : 1 ≤ gm) (hm2 : gm ≤ 12) (hd1 : 1 ≤ gd)
    (hd2 : gd ≤ g_month_len (is_gregorian_leap_year gy) gm) :
    ∃ jy jm jd, gregorian_to_shamsi gy gm gd = some (jy, jm, jd) ∧
      1 ≤ jm ∧ jm ≤ 12 ∧ 1 ≤ jd ∧ jd ≤ j_month_len (is_shamsi_leap_year jy) jm ∧
      ((80 ≤ g_doy (is_gregorian_leap_year gy) gm gd ∧
        1 ≤ g_doy (is_gregorian_leap_year gy) gm gd - newYearOffset (gy - 621) ∧
        jy = gy - 621 ∧
        j_cum (is_shamsi_leap_year jy) (jm - 1) + jd =
          g_doy (is_gregorian_leap_year gy) gm gd - newYearOffset (gy - 621)) ∨
       (80 ≤ g_doy (is_gregorian_leap_year gy) gm gd ∧
        g_doy (is_gregorian_leap_year gy) gm gd - newYearOffset (gy - 621) < 1 ∧
        jy = gy - 621 ∧
        j_cum (is_shamsi_leap_year jy) (jm - 1) + jd =
          g_doy (is_gregorian_leap_year gy) gm gd - newYearOffset (gy - 621) +
            shamsiYearLen (gy - 621)) ∨
       (g_doy (is_gregorian_leap_year gy) gm gd < 80 ∧
        jy = gy - 622 ∧
        j_cum (is_shamsi_leap_year jy) (jm - 1) + jd =
          g_doy (is_gregorian_leap_year gy) gm gd - newYearOffset (gy - 622) +
            shamsiYearLen (gy - 622))) := by
  have hz := g_doy_zero (is_gregorian_leap_year gy) gm gd
  have hbd := g_doy_bounds (b := is_gregorian_leap_year gy) hm1 hm2
  have hbg := biB_bounds (is_gregorian_leap_year gy)
  have hoffA : 79 ≤ newYearOffset (gy - 621) ∧ newYearOffset (gy - 621) ≤ 80 := by
    unfold newYearOffset
    split_ifs <;> omega
  have hoffC : 79 ≤ newYearOffset (gy - 622) ∧ newYearOffset (gy - 622) ≤ 80 := by
    unfold newYearOffset
    split_ifs <;> omega
  have hSLA : shamsiYearLen (gy - 621) = 365 + biB (is_shamsi_leap_year (gy - 621)) := rfl
  have hSLC : shamsiYearLen (gy - 622) = 365 + biB (is_shamsi_leap_year (gy - 622)) := rfl
  have hbA := biB_bounds (is_shamsi_leap_year (gy - 621))
  have hbC := biB_bounds (is_shamsi_leap_year (gy - 622))
  rw [g2s_eq]
  by_cases hlt : g_doy (is_gregorian_leap_year gy) gm gd < 80
  · rw [if_pos hlt]
    have hdps : g_doy (is_gregorian_leap_year gy) gm gd - newYearOffset (gy - 622) < 1 := by
      omega
    rw [if_pos hdps]
    obtain ⟨jm, jd, hwalk, h1, h2, h3, h4, h5⟩ :=
      shamsiWalk_sound (b := is_shamsi_leap_year (gy - 622))
        (t := g_doy (is_gregorian_leap_year gy) gm gd - newYearOffset (gy - 622) +
          shamsiYearLen (gy - 622)) (by omega) (by omega)
    refine ⟨gy - 622, jm, jd, ?_, h1, h2, h3, h4, Or.inr (Or.inr ⟨hlt, rfl, h5⟩)⟩
    rw [hwalk]
    rfl
  · rw [if_neg hlt]
    by_cases hdps : g_doy (is_gregorian_leap_year gy) gm gd - newYearOffset (gy - 621) < 1
    · rw [if_pos hdps]
      obtain ⟨jm, jd, hwalk, h1, h2, h3, h4, h5⟩ :=
        shamsiWalk_sound (b := is_shamsi_leap_year (gy - 621))
          (t := g_doy (is_gregorian_leap_year gy) gm gd - newYearOffset (gy - 621) +
            shamsiYearLen (gy - 621)) (by omega) (by omega)
      refine ⟨gy - 621, jm, jd, ?_, h1, h2, h3, h4,
        Or.inr (Or.inl ⟨by omega, hdps, rfl, h5⟩)⟩
      rw [hwalk]
      rfl
    · rw [if_neg hdps]
      obtain ⟨jm, jd, hwalk, h1, h2, h3, h4, h5⟩ :=
        shamsiWalk_sound (b := is_shamsi_leap_year (gy - 621))
          (t := g_doy (is_gregorian_leap_year gy) gm gd - newYearOffset (gy - 621))
          (by omega) (by omega)
      refine ⟨gy - 621, jm, jd, ?_, h1, h2, h3, h4,
        Or.inl ⟨by omega, by omega, rfl, h5⟩⟩
      rw [hwalk]
      rfl

/-! ## Bridging `get_days_in_shamsi_month` with the walk month lengths -/

theorem days_some {y m : Int} (h1 : 1 ≤ m) (h2 : m ≤ 12) :
    get_days_in_shamsi_month y m = some (j_month_len (is_shamsi_leap_year y) m) := by
  unfold get_days_in_shamsi_month j_month_len
  interval_cases m <;> cases hb : is_shamsi_leap_year y <;>
    simp [j_days_in_month, hb]

theorem days_some_bounds {y m L : Int} (h : get_days_in_shamsi_month y m = some L) :
    1 ≤ m ∧ m ≤ 12 := by
  unfold get_days_in_shamsi_month at h
  split_ifs at h <;> omega

theorem days_some_val {y m L : Int} (h : get_days_in_shamsi_month y m = some L) :
    L = j_month_len (is_shamsi_leap_year y) m := by
  obtain ⟨h1, h2⟩ := days_some_bounds h
  rw [days_some h1 h2] at h
  exact (Option.some_injective _ h).symm

/-- C2: converting a valid Shamsi date yields a valid Gregorian date (month
1–12, day within the Gregorian month length with the leap rule), and
converting a valid Gregorian date yields a valid Shamsi date (day within
`get_days_in_shamsi_month` of the returned year and month). -/
theorem C2_conversions_preserve_validity :
    (∀ y m d L : Int, get_days_in_shamsi_month y m = some L → 1 ≤ d → d ≤ L →
      ∃ gy gm gd, shamsi_to_gregorian y m d = some (gy, gm, gd) ∧
        1 ≤ gm ∧ gm ≤ 12 ∧ 1 ≤ gd ∧ gd ≤ gregorian_days_in_month gy gm) ∧
    (∀ gy gm gd : Int, 1 ≤ gm → gm ≤ 12 → 1 ≤ gd → gd ≤ gregorian_days_in_month gy gm →
      ∃ jy jm jd L : Int, gregorian_to_shamsi gy gm gd = some (jy, jm, jd) ∧
        1 ≤ jm ∧ jm ≤ 12 ∧ get_days_in_shamsi_month jy jm = some L ∧
        1 ≤ jd ∧ jd ≤ L) := by
  unfold gregorian_days_in_month
  constructor
  · intro y m d L hL hd1 hd2
    obtain ⟨h1, h2⟩ := days_some_bounds hL
    have hLv := days_some_val hL
    obtain ⟨gy, gm, gd, heq, v1, v2, v3, v4, _⟩ :=
      s2g_strong (y := y) h1 h2 hd1 (by omega)
    exact ⟨gy, gm, gd, heq, v1, v2, v3, v4⟩
  · intro gy gm gd h1 h2 h3 h4
    obtain ⟨jy, jm, jd, heq, v1, v2, v3, v4, _⟩ := g2s_strong h1 h2 h3 h4
    exact ⟨jy, jm, jd, _, heq, v1, v2, days_some v1 v2, v3, v4⟩

/-- Witness for C2 at the concrete dates (1403, 1, 1) and (2024, 3, 20). -/
theorem C2_conversions_preserve_validity_witness :
    (∃ gy gm gd, shamsi_to_gregorian 1403 1 1 = some (gy, gm, gd) ∧
      1 ≤ gm ∧ gm ≤ 12 ∧ 1 ≤ gd ∧ gd ≤ gregorian_days_in_month gy gm) ∧
    (∃ jy jm jd L : Int, gregorian_to_shamsi 2024 3 20 = some (jy, jm, jd) ∧
      1 ≤ jm ∧ jm ≤ 12 ∧ get_days_in_shamsi_month jy jm = some L ∧
      1 ≤ jd ∧ jd ≤ L) :=
  ⟨C2_conversions_preserve_validity.1 1403 1 1 31 (by decide) (by decide) (by decide),
   C2_conversions_preserve_validity.2 2024 3 20 (by decide) (by decide) (by decide)
     (by decide)⟩

/-- C5: on every valid input both conversion functions run to completion with
no exception: the month walk exits via its `break` (so the result is `some`,
never the out-of-bounds `none`) with the month counter at most 12. -/
theorem C5_conversions_total :
    (∀ y m d L : Int, get_days_in_shamsi_month y m = some L → 1 ≤ d → d ≤ L →
      ∃ gy gm gd, shamsi_to_gregorian y m d = some (gy, gm, gd) ∧ 1 ≤ gm ∧ gm ≤ 12) ∧
    (∀ gy gm gd : Int, 1 ≤ gm → gm ≤ 12 → 1 ≤ gd → gd ≤ gregorian_days_in_month gy gm →
      ∃ jy jm jd, gregorian_to_shamsi gy gm gd = some (jy, jm, jd) ∧
        1 ≤ jm ∧ jm ≤ 12) := by
  unfold gregorian_days_in_month
  constructor
  · intro y m d L hL hd1 hd2
    obtain ⟨h1, h2⟩ := days_some_bounds hL
    have hLv := days_some_val hL
    obtain ⟨gy, gm, gd, heq, v1, v2, _, _, _⟩ :=
      s2g_strong (y := y) h1 h2 hd1 (by omega)
    exact ⟨gy, gm, gd, heq, v1, v2⟩
  · intro gy gm gd h1 h2 h3 h4
    obtain ⟨jy, jm, jd, heq, v1, v2, _, _, _⟩ := g2s_strong h1 h2 h3 h4
    exact ⟨jy, jm, jd, heq, v1, v2⟩

/-- Witness for C5 at the concrete dates (1357, 11, 22) and (1979, 2, 11). -/
theorem C5_conversions_total_witness :
    (∃ gy gm gd, shamsi_to_gregorian 1357 11 22 = some (gy, gm, gd) ∧
      1 ≤ gm ∧ gm ≤ 12) ∧
    (∃ jy jm jd, gregorian_to_shamsi 1979 2 11 = some (jy, jm, jd) ∧
      1 ≤ jm ∧ jm ≤ 12) :=
  ⟨C5_conversions_total.1 1357 11 22 30 (by decide) (by decide) (by decide),
   C5_conversions_total.2 1979 2 11 (by decide) (by decide) (by decide) (by decide)⟩

/-! ## Round-trip analysis -/

theorem newYearOffset_cases (y : Int) :
    (is_shamsi_leap_year (y - 1) = true ∧ newYearOffset y = 80) ∨
    (is_shamsi_leap_year (y - 1) = false ∧ newYearOffset y = 79) := by
  unfold newYearOffset
  rcases h : is_shamsi_leap_year (y - 1) <;> simp [h]

theorem roundtripS {y m d : Int} (hm1 : 1 ≤ m) (hm2 : m ≤ 12) (hd1 : 1 ≤ d)
    (hd2 : d ≤ j_month_len (is_shamsi_leap_year y) m)
    (hcond : newYearOffset y + (j_cum (is_shamsi_leap_year y) (m - 1) + d) ≤
        gregYearLen (y + 621) ∨
      (newYearOffset y + (j_cum (is_shamsi_leap_year y) (m - 1) + d) -
          gregYearLen (y + 621) ≤ 79 ∧
        is_shamsi_leap_year y = is_gregorian_leap_year (y + 621))) :
    ∃ gy gm gd, shamsi_to_gregorian y m d = some (gy, gm, gd) ∧
      gregorian_to_shamsi gy gm gd = some (y, m, d) := by
  have hcum := j_cum_bounds (b := is_shamsi_leap_year y) hm1 hm2
  have hoffb : 79 ≤ newYearOffset y ∧ newYearOffset y ≤ 80 := by
    unfold newYearOffset
    split_ifs <;> omega
  obtain ⟨gy, gm, gd, heq, v1, v2, v3, v4, hcase⟩ := s2g_strong hm1 hm2 hd1 hd2
  refine ⟨gy, gm, gd, heq, ?_⟩
  rw [g2s_eq]
  rcases hcase with ⟨hle, hgy, hdoy⟩ | ⟨hgt, hgy, hdoy⟩
  · subst hgy
    rw [hdoy]
    rw [if_neg (show ¬(newYearOffset y + (j_cum (is_shamsi_leap_year y) (m - 1) + d) < 80)
      from by omega)]
    rw [show y + 621 - 621 = y from by ring]
    rw [if_neg (show ¬(newYearOffset y + (j_cum (is_shamsi_leap_year y) (m - 1) + d) -
      newYearOffset y < 1) from by omega)]
    rw [show newYearOffset y + (j_cum (is_shamsi_leap_year y) (m - 1) + d) -
      newYearOffset y = j_cum (is_shamsi_leap_year y) (m - 1) + d from by ring]
    rw [shamsiWalk_inv hm1 hm2 hd1 hd2]
    rfl
  · rcases hcond with hc | ⟨hc79, hcal⟩
    · omega
    have hbal : biB (is_shamsi_leap_year y) = biB (is_gregorian_leap_year (y + 621)) := by
      rw [hcal]
    have hglen : gregYearLen (y + 621) = 365 + biB (is_gregorian_leap_year (y + 621)) := rfl
    have hSL : shamsiYearLen y = 365 + biB (is_shamsi_leap_year y) := rfl
    subst hgy
    rw [hdoy]
    rw [if_pos (show newYearOffset y + (j_cum (is_shamsi_leap_year y) (m - 1) + d) -
      gregYearLen (y + 621) < 80 from by omega)]
    rw [show y + 622 - 622 = y from by ring]
    rw [if_pos (show newYearOffset y + (j_cum (is_shamsi_leap_year y) (m - 1) + d) -
      gregYearLen (y + 621) - newYearOffset y < 1 from by omega)]
    rw [show newYearOffset y + (j_cum (is_shamsi_leap_year y) (m - 1) + d) -
      gregYearLen (y + 621) - newYearOffset y + shamsiYearLen y =
      j_cum (is_shamsi_leap_year y) (m - 1) + d from by omega]
    rw [shamsiWalk_inv hm1 hm2 hd1 hd2]
    rfl

theorem roundtripG {gy gm gd : Int} (hm1 : 1 ≤ gm) (hm2 : gm ≤ 12) (hd1 : 1 ≤ gd)
    (hd2 : gd ≤ g_month_len (is_gregorian_leap_year gy) gm)
    (hcond : 81 ≤ g_doy (is_gregorian_leap_year gy) gm gd ∨
      (g_doy (is_gregorian_leap_year gy) gm gd = 80 ∧
        is_shamsi_leap_year (gy - 622) = false) ∨
      (g_doy (is_gregorian_leap_year gy) gm gd ≤ 79 ∧
        is_shamsi_leap_year (gy - 622) = is_gregorian_leap_year (gy - 1))) :
    ∃ jy jm jd, gregorian_to_shamsi gy gm gd = some (jy, jm, jd) ∧
      shamsi_to_gregorian jy jm jd = some (gy, gm, gd) := by
  have hz := g_doy_zero (is_gregorian_leap_year gy) gm gd
  have hbd := g_doy_bounds (b := is_gregorian_leap_year gy) hm1 hm2
  have hbg := biB_bounds (is_gregorian_leap_year gy)
  obtain ⟨jy, jm, jd, heq, v1, v2, v3, v4, hcase⟩ := g2s_strong hm1 hm2 hd1 hd2
  refine ⟨jy, jm, jd, heq, ?_⟩
  rw [s2g_eq]
  rcases hcase with ⟨h80, h1dps, hjy, hsum⟩ | ⟨h80, hdps, hjy, hsum⟩ | ⟨h79, hjy, hsum⟩
  · subst hjy
    rw [hsum]
    rw [show gy - 621 + 621 = gy from by ring]
    have hgl : gregYearLen gy = 365 + biB (is_gregorian_leap_year gy) := rfl
    have hnw : ¬(gregYearLen gy < newYearOffset (gy - 621) +
        (g_doy (is_gregorian_leap_year gy) gm gd - newYearOffset (gy - 621))) := by
      omega
    rw [if_neg hnw, if_neg hnw]
    rw [show newYearOffset (gy - 621) +
      (g_doy (is_gregorian_leap_year gy) gm gd - newYearOffset (gy - 621)) =
      g_doy (is_gregorian_leap_year gy) gm gd from by ring]
    rw [gregWalk_inv hm1 hm2 hd1 hd2]
    rfl
  · rcases newYearOffset_cases (gy - 621) with ⟨hl, ho⟩ | ⟨hl, ho⟩
    · rw [show gy - 621 - 1 = gy - 622 from by ring] at hl
      rcases hcond with h | ⟨hd80, hfalse⟩ | ⟨h79x, _⟩
      · omega
      · rw [hl] at hfalse
        simp at hfalse
      · omega
    · omega
  · rcases hcond with h | ⟨hd80, hx⟩ | ⟨h79x, hcal⟩
    · omega
    · omega
    subst hjy
    rw [hsum]
    have hoffC : 79 ≤ newYearOffset (gy - 622) ∧ newYearOffset (gy - 622) ≤ 80 := by
      unfold newYearOffset
      split_ifs <;> omega
    have hbal : biB (is_shamsi_leap_year (gy - 622)) =
        biB (is_gregorian_leap_year (gy - 1)) := by
      rw [hcal]
    have hSL : shamsiYearLen (gy - 622) = 365 + biB (is_shamsi_leap_year (gy - 622)) := rfl
    rw [show gy - 622 + 621 = gy - 1 from by ring, show gy - 622 + 622 = gy from by ring]
    have hgl1 : gregYearLen (gy - 1) = 365 + biB (is_gregorian_leap_year (gy - 1)) := rfl
    have hwr : gregYearLen (gy - 1) < newYearOffset (gy - 622) +
        (g_doy (is_gregorian_leap_year gy) gm gd - newYearOffset (gy - 622) +
          shamsiYearLen (gy - 622)) := by
      omega
    rw [if_pos hwr, if_pos hwr]
    rw [show newYearOffset (gy - 622) +
      (g_doy (is_gregorian_leap_year gy) gm gd - newYearOffset (gy - 622) +
        shamsiYearLen (gy - 622)) - gregYearLen (gy - 1) =
      g_doy (is_gregorian_leap_year gy) gm gd from by omega]
    rw [gregWalk_inv hm1 hm2 hd1 hd2]
    rfl

/-- C1 counterexample: (1403, 12, 28) is a valid Shamsi date (Esfand 1403 has
29 days), yet the Shamsi → Gregorian → Shamsi round trip returns
(1403, 12, 27); symmetrically the valid Gregorian date (2025, 3, 18) comes
back as (2025, 3, 17).  The claim that the round trip is the identity on all
valid dates is therefore false. -/
theorem C1_roundtrip_counterexample :
    get_days_in_shamsi_month 1403 12 = some 29 ∧
    shamsi_to_gregorian 1403 12 28 = some (2025, 3, 18) ∧
    gregorian_to_shamsi 2025 3 18 = some (1403, 12, 27) ∧
    shamsi_to_gregorian 1403 12 27 = some (2025, 3, 17) ∧
    ¬((shamsi_to_gregorian 1403 12 28).bind
        (fun t => gregorian_to_shamsi t.1 t.2.1 t.2.2) = some (1403, 12, 28)) ∧
    ¬((gregorian_to_shamsi 2025 3 18).bind
        (fun t => shamsi_to_gregorian t.1 t.2.1 t.2.2) = some (2025, 3, 18)) := by
  decide

/-- C1 (amended): the round trips are the identity exactly on the aligned part
of the calendar.  Shamsi → Gregorian → Shamsi returns the original valid date
whenever the converted date stays inside Gregorian year y+621, or it overflows
to a day-of-year ≤ 79 of year y+622 and `is_shamsi_leap_year y` agrees with
the Gregorian leap status of y+621.  Gregorian → Shamsi → Gregorian returns
the original valid date whenever its day-of-year is ≥ 81, or is 80 with
gy−622 not Shamsi-leap, or is ≤ 79 with `is_shamsi_leap_year (gy−622)` equal
to the Gregorian leap status of gy−1. -/
theorem C1_roundtrip_amended :
    (∀ y m d L : Int, get_days_in_shamsi_month y m = some L → 1 ≤ d → d ≤ L →
      (newYearOffset y + (j_cum (is_shamsi_leap_year y) (m - 1) + d) ≤
          gregYearLen (y + 621) ∨
        (newYearOffset y + (j_cum (is_shamsi_leap_year y) (m - 1) + d) -
            gregYearLen (y + 621) ≤ 79 ∧
          is_shamsi_leap_year y = is_gregorian_leap_year (y + 621))) →
      ∃ gy gm gd, shamsi_to_gregorian y m d = some (gy, gm, gd) ∧
        gregorian_to_shamsi gy gm gd = some (y, m, d)) ∧
    (∀ gy gm gd : Int, 1 ≤ gm → gm ≤ 12 → 1 ≤ gd →
      gd ≤ gregorian_days_in_month gy gm →
      (81 ≤ g_doy (is_gregorian_leap_year gy) gm gd ∨
        (g_doy (is_gregorian_leap_year gy) gm gd = 80 ∧
          is_shamsi_leap_year (gy - 622) = false) ∨
        (g_doy (is_gregorian_leap_year gy) gm gd ≤ 79 ∧
          is_shamsi_leap_year (gy - 622) = is_gregorian_leap_year (gy - 1))) →
      ∃ jy jm jd, gregorian_to_shamsi gy gm gd = some (jy, jm, jd) ∧
        shamsi_to_gregorian jy jm jd = some (gy, gm, gd)) := by
  constructor
  · intro y m d L hL hd1 hd2 hcond
    obtain ⟨h1, h2⟩ := days_some_bounds hL
    have hLv := days_some_val hL
    exact roundtripS h1 h2 hd1 (by omega) hcond
  · intro gy gm gd h1 h2 h3 h4 hcond
    exact roundtripG h1 h2 h3 h4 hcond

/-- Witness for C1 (amended) at the dates (1403, 1, 1) and (2024, 3, 20). -/
theorem C1_roundtrip_amended_witness :
    (∃ gy gm gd, shamsi_to_gregorian 1403 1 1 = some (gy, gm, gd) ∧
      gregorian_to_shamsi gy gm gd = some (1403, 1, 1)) ∧
    (∃ jy jm jd, gregorian_to_shamsi 2024 3 20 = some (jy, jm, jd) ∧
      shamsi_to_gregorian jy jm jd = some (2024, 3, 20)) :=
  ⟨C1_roundtrip_amended.1 1403 1 1 31 (by decide) (by decide) (by decide) (by decide),
   C1_roundtrip_amended.2 2024 3 20 (by decide) (by decide) (by decide) (by decide)
     (by decide)⟩

/-! ## Leap-rule claims -/

theorem leap_res_eq (x : Int) : is_shamsi_leap_year x = leap_res ((x + 2346) % 33) := rfl

/-- C3: `is_shamsi_leap_year` returns true exactly when `(year + 2346) mod 33`
(the always-non-negative remainder) is one of the eight cycle residues; it is
33-periodic and each window of 33 consecutive years contains exactly 8 leap
years. -/
theorem C3_leap_rule (y : Int) :
    (is_shamsi_leap_year y = true ↔
      ((y + 2346) % 33 = 1 ∨ (y + 2346) % 33 = 5 ∨ (y + 2346) % 33 = 9 ∨
       (y + 2346) % 33 = 13 ∨ (y + 2346) % 33 = 17 ∨ (y + 2346) % 33 = 21 ∨
       (y + 2346) % 33 = 26 ∨ (y + 2346) % 33 = 30)) ∧
    (0 ≤ (y + 2346) % 33 ∧ (y + 2346) % 33 < 33) ∧
    is_shamsi_leap_year y = is_shamsi_leap_year (y + 33) ∧
    (List.range 33).countP (fun k => is_shamsi_leap_year (y + (k : Int))) = 8 := by
  refine ⟨leap_iff y, ⟨Int.emod_nonneg _ (by norm_num), Int.emod_lt_of_pos _ (by norm_num)⟩,
    ?_, ?_⟩
  · rw [Bool.eq_iff_iff, leap_iff, leap_iff]
    omega
  · have hall : ∀ i ∈ List.range 33,
        (List.range 33).countP (fun k => leap_res (((i : Int) + (k : Int)) % 33)) = 8 := by
      decide
    have h0 : 0 ≤ (y + 2346) % 33 ∧ (y + 2346) % 33 < 33 :=
      ⟨Int.emod_nonneg _ (by norm_num), Int.emod_lt_of_pos _ (by norm_num)⟩
    have hi : ((y + 2346) % 33).toNat ∈ List.range 33 := by
      rw [List.mem_range]
      omega
    have hfin := hall _ hi
    have hcast : ((((y + 2346) % 33).toNat : Nat) : Int) = (y + 2346) % 33 := by omega
    rw [hcast] at hfin
    rw [← hfin]
    refine List.countP_congr fun a _ => ?_
    have h : is_shamsi_leap_year (y + (a : Int)) =
        leap_res (((y + 2346) % 33 + (a : Int)) % 33) :=
      (leap_res_eq _).trans (congrArg leap_res (by omega))
    rw [h]

/-- C4: the three anchor conversions from the spec hold exactly. -/
theorem C4_known_dates :
    shamsi_to_gregorian 1403 1 1 = some (2024, 3, 20) ∧
    gregorian_to_shamsi 2024 3 20 = some (1403, 1, 1) ∧
    gregorian_to_shamsi 1979 2 11 = some (1357, 11, 22) := by
  decide

/-- C6: the twelve Shamsi month lengths sum to 366 in a leap year and 365
otherwise. -/
theorem C6_month_lengths_sum (y : Int) :
    ((List.range 12).map
      (fun m => (get_days_in_shamsi_month y ((m : Int) + 1)).getD 0)).sum =
      if is_shamsi_leap_year y then 366 else 365 := by
  have hr : List.range 12 = [0, 1, 2, 3, 4, 5, 6, 7, 8, 9, 10, 11] := rfl
  rw [hr]
  cases hb : is_shamsi_leap_year y <;> norm_num [get_days_in_shamsi_month, hb]

/-- C7: `get_days_in_shamsi_month` returns 31 for months 1–6, 30 for 7–11,
29/30 for month 12 according to the leap rule, and fails exactly for months
outside 1–12. -/
theorem C7_days_in_month (y m : Int) :
    (1 ≤ m → m ≤ 6 → get_days_in_shamsi_month y m = some 31) ∧
    (7 ≤ m → m ≤ 11 → get_days_in_shamsi_month y m = some 30) ∧
    (m = 12 → get_days_in_shamsi_month y m =
      some (if is_shamsi_leap_year y then 30 else 29)) ∧
    (get_days_in_shamsi_month y m = none ↔ (m < 1 ∨ 12 < m)) := by
  unfold get_days_in_shamsi_month
  refine ⟨?_, ?_, ?_, ?_⟩ <;> split_ifs <;> simp_all <;> omega

/-- Witness for C7 at months 3, 9, 12 and the invalid month 13. -/
theorem C7_days_in_month_witness :
    get_days_in_shamsi_month 1403 3 = some 31 ∧
    get_days_in_shamsi_month 1403 9 = some 30 ∧
    get_days_in_shamsi_month 1404 12 = some (if is_shamsi_leap_year 1404 then 30 else 29) ∧
    (get_days_in_shamsi_month 1403 13 = none ↔ ((13 : Int) < 1 ∨ 12 < (13 : Int))) :=
  ⟨(C7_days_in_month 1403 3).1 (by decide) (by decide),
   (C7_days_in_month 1403 9).2.1 (by decide) (by decide),
   (C7_days_in_month 1404 12).2.2.1 rfl,
   (C7_days_in_month 1403 13).2.2.2⟩

/-! ## Month names -/

/-- C8 counterexample: `get_shamsi_month_name` does not fail on every month
outside 1–12 — the Python list index returns the dummy empty string at 0 and
wraps negative indexes, e.g. −1 ↦ "Esfand". -/
theorem C8_month_name_counterexample :
    get_shamsi_month_name 0 = some "" ∧ get_shamsi_month_name (-1) = some "Esfand" :=
  ⟨rfl, rfl⟩

/-- C8 (amended): the fixed names are returned for months 1–12; month 0 yields
the dummy empty string, months −13…−1 wrap around to the entry 13 places up
(Python negative indexing), and the lookup fails exactly for months ≥ 13 or
≤ −14. -/
theorem C8_month_name_amended :
    (get_shamsi_month_name 1 = some "Farvardin" ∧
     get_shamsi_month_name 2 = some "Ordibehesht" ∧
     get_shamsi_month_name 3 = some "Khordad" ∧
     get_shamsi_month_name 4 = some "Tir" ∧
     get_shamsi_month_name 5 = some "Mordad" ∧
     get_shamsi_month_name 6 = some "Shahrivar" ∧
     get_shamsi_month_name 7 = some "Mehr" ∧
     get_shamsi_month_name 8 = some "Aban" ∧
     get_shamsi_month_name 9 = some "Azar" ∧
     get_shamsi_month_name 10 = some "Dey" ∧
     get_shamsi_month_name 11 = some "Bahman" ∧
     get_shamsi_month_name 12 = some "Esfand") ∧
    get_shamsi_month_name 0 = some "" ∧
    (∀ m : Int, -13 ≤ m → m ≤ -1 →
      get_shamsi_month_name m = get_shamsi_month_name (m + 13)) ∧
    (∀ m : Int, get_shamsi_month_name m = none ↔ (13 ≤ m ∨ m ≤ -14)) := by
  have hlen : ((shamsi_month_names.length : Nat) : Int) = 13 := rfl
  have hlen2 : shamsi_month_names.length = 13 := rfl
  refine ⟨⟨rfl, rfl, rfl, rfl, rfl, rfl, rfl, rfl, rfl, rfl, rfl, rfl⟩, rfl, ?_, ?_⟩
  · intro m h1 h2
    unfold get_shamsi_month_name pyIndex
    rw [hlen]
    rw [if_neg (by omega), if_pos (by omega), if_pos (by omega)]
  · intro m
    unfold get_shamsi_month_name pyIndex
    rw [hlen]
    split_ifs with h1 h2
    · rw [List.get?_eq_none, hlen2]
      omega
    · rw [List.get?_eq_none, hlen2]
      omega
    · simp only [true_iff]
      omega

/-- Witness for C8 (amended) at months −1 and 13. -/
theorem C8_month_name_amended_witness :
    get_shamsi_month_name (-1) = get_shamsi_month_name (-1 + 13) ∧
    (get_shamsi_month_name 13 = none ↔ ((13 : Int) ≤ 13 ∨ (13 : Int) ≤ -14)) :=
  ⟨C8_month_name_amended.2.2.1 (-1) (by decide) (by decide),
   C8_month_name_amended.2.2.2 13⟩

/-! ## Renderer layout claims -/

theorem j_month_len_pos {b : Bool} {m : Int} (h1 : 1 ≤ m) (h2 : m ≤ 12) :
    1 ≤ j_month_len b m := by
  have hall : ∀ i ∈ List.range 12, 1 ≤ j_month_len b ((i : Int) + 1) := by
    cases b <;> decide
  have hi : (m - 1).toNat ∈ List.range 12 := by
    rw [List.mem_range]
    omega
  have hc := hall _ hi
  have he : (((m - 1).toNat : Nat) : Int) + 1 = m := by omega
  rwa [he] at hc

theorem month_name_some {m : Int} (h1 : 1 ≤ m) (h2 : m ≤ 12) :
    ∃ s, get_shamsi_month_name m = some s := by
  unfold get_shamsi_month_name pyIndex
  rw [if_pos (by omega)]
  have hlt : m.toNat < shamsi_month_names.length := by
    have : shamsi_month_names.length = 13 := rfl
    omega
  exact ⟨_, List.get?_eq_get hlt⟩

theorem leadingBlankCount_layout (k n : Nat) (f : Nat → Cell)
    (hf : ∀ i, (f i == Cell.blank) = false) (hn : 0 < n) :
    leadingBlankCount (List.replicate k Cell.blank ++ (List.range n).map f) = k := by
  induction k with
  | zero =>
    simp only [List.replicate, List.nil_append, leadingBlankCount]
    cases n with
    | zero => omega
    | succ n2 =>
      rw [List.range_succ_eq_map]
      simp [List.takeWhile, hf 0]
  | succ k ih =>
    simp only [leadingBlankCount] at ih ⊢
    rw [List.replicate_succ, List.cons_append,
      List.takeWhile_cons_of_pos (p := fun c => c == Cell.blank) (a := Cell.blank) rfl,
      List.length_cons, ih]

theorem countP_replicate_zero (k : Nat) (p : Cell → Bool) (hp : p Cell.blank = false) :
    (List.replicate k Cell.blank).countP p = 0 := by
  induction k with
  | zero => rfl
  | succ k ih => simp [List.replicate_succ, List.countP_cons, ih, hp]

theorem count_range_eq (n : Nat) (v : Int) :
    (List.range n).countP (fun i : Nat => ((i : Int) + 1 == v)) =
      if 1 ≤ v ∧ v ≤ (n : Int) then 1 else 0 := by
  induction n with
  | zero =>
    simp only [List.range_zero, List.countP_nil, Nat.cast_zero]
    split_ifs with h
    · omega
    · rfl
  | succ n ih =>
    rw [List.range_succ, List.countP_append, ih]
    simp only [List.countP_cons, List.countP_nil, beq_iff_eq, Nat.cast_succ]
    split_ifs <;> omega

theorem highlightCount_layout (k n : Nat) (g : Nat → Bool) :
    highlightCount (List.replicate k Cell.blank ++
      (List.range n).map fun i : Nat => Cell.day ((i : Int) + 1) (g i)) =
    (List.range n).countP g := by
  unfold highlightCount
  rw [List.countP_append, countP_replicate_zero _ _ rfl, List.countP_map, Nat.zero_add]
  refine List.countP_congr fun a ha => ?_
  cases hg : g a <;> simp [Function.comp, hg]

theorem print_spec {y m : Int} (hm1 : 1 ≤ m) (hm2 : m ≤ 12) (hl : Option Int) :
    ∃ gy gm gd cells,
      shamsi_to_gregorian y m 1 = some (gy, gm, gd) ∧
      print_shamsi_calendar y m hl = some cells ∧
      leadingBlankCount cells = ((date_weekday gy gm gd + 2) % 7).toNat ∧
      highlightCount cells =
        (match hl with
         | some h =>
           if 1 ≤ h ∧ h ≤ j_month_len (is_shamsi_leap_year y) m then 1 else 0
         | none => 0) := by
  obtain ⟨s, hname⟩ := month_name_some hm1 hm2
  have hs := s2g_strong (y := y) (m := m) (d := 1) hm1 hm2 (le_refl (1 : Int))
    (j_month_len_pos (b := is_shamsi_leap_year y) hm1 hm2)
  obtain ⟨gy, gm, gd, heq, _, _, _, _, _⟩ := hs
  have hdays := days_some (y := y) hm1 hm2
  have hLpos := j_month_len_pos (b := is_shamsi_leap_year y) hm1 hm2
  have hpos : 0 < (j_month_len (is_shamsi_leap_year y) m).toNat := by omega
  refine ⟨gy, gm, gd,
    List.replicate ((date_weekday gy gm gd + 2) % 7).toNat Cell.blank ++
      (List.range (j_month_len (is_shamsi_leap_year y) m).toNat).map
        (fun i : Nat => Cell.day ((i : Int) + 1)
          (match hl with
           | some h => (i : Int) + 1 == h
           | none => false)),
    heq, ?_, ?_, ?_⟩
  · unfold print_shamsi_calendar
    rw [hname, heq, hdays]
  · exact leadingBlankCount_layout _ _ _ (fun i => rfl) hpos
  · rw [highlightCount_layout]
    cases hl with
    | none => exact congrFun List.countP_false _
    | some h =>
      show (List.range (j_month_len (is_shamsi_leap_year y) m).toNat).countP
          (fun i : Nat => ((i : Int) + 1 == h)) =
        if 1 ≤ h ∧ h ≤ j_month_len (is_shamsi_leap_year y) m then 1 else 0
      rw [count_range_eq]
      split_ifs <;> omega

/-- C9: for every Shamsi year, month 1–12 and optional highlighted day, the
renderer emits `(w + 2) mod 7` leading blank cells before day 1, where `w` is
the ISO weekday (Monday = 0 … Sunday = 6) of the Gregorian equivalent of day
1 of the month; the count lies between 0 and 6 and is 0 when day 1 falls on
Saturday (w = 5) and 6 when it falls on Friday (w = 4). -/
theorem C9_leading_blanks (y m : Int) (hm1 : 1 ≤ m) (hm2 : m ≤ 12) (hl : Option Int) :
    ∃ gy gm gd cells,
      shamsi_to_gregorian y m 1 = some (gy, gm, gd) ∧
      print_shamsi_calendar y m hl = some cells ∧
      (leadingBlankCount cells : Int) = (date_weekday gy gm gd + 2) % 7 ∧
      0 ≤ (date_weekday gy gm gd + 2) % 7 ∧ (date_weekday gy gm gd + 2) % 7 ≤ 6 ∧
      (date_weekday gy gm gd = 5 → (leadingBlankCount cells : Int) = 0) ∧
      (date_weekday gy gm gd = 4 → (leadingBlankCount cells : Int) = 6) := by
  obtain ⟨gy, gm, gd, cells, heq, hprint, hlb, _⟩ := print_spec (y := y) hm1 hm2 hl
  have hmod1 : 0 ≤ (date_weekday gy gm gd + 2) % 7 := Int.emod_nonneg _ (by norm_num)
  have hmod2 : (date_weekday gy gm gd + 2) % 7 < 7 := Int.emod_lt_of_pos _ (by norm_num)
  refine ⟨gy, gm, gd, cells, heq, hprint, ?_, hmod1, by omega, ?_, ?_⟩
  · omega
  · intro hw
    omega
  · intro hw
    omega

/-- C10: when the highlighted day is given and lies between 1 and the month's
day count, exactly one rendered cell carries the highlight marker; when it is
absent or out of range, no cell does. -/
theorem C10_highlight (y m : Int) (hm1 : 1 ≤ m) (hm2 : m ≤ 12) (hl : Option Int) :
    ∃ L cells, get_days_in_shamsi_month y m = some L ∧
      print_shamsi_calendar y m hl = some cells ∧
      highlightCount cells = (match hl with
        | some h => if 1 ≤ h ∧ h ≤ L then 1 else 0
        | none => 0) := by
  obtain ⟨gy, gm, gd, cells, heq, hprint, _, hhc⟩ := print_spec (y := y) hm1 hm2 hl
  exact ⟨_, cells, days_some hm1 hm2, hprint, hhc⟩

/-- Witness for C9 at Farvardin 1403 with no highlighted day. -/
theorem C9_leading_blanks_witness :
    ∃ gy gm gd cells,
      shamsi_to_gregorian 1403 1 1 = some (gy, gm, gd) ∧
      print_shamsi_calendar 1403 1 none = some cells ∧
      (leadingBlankCount cells : Int) = (date_weekday gy gm gd + 2) % 7 ∧
      0 ≤ (date_weekday gy gm gd + 2) % 7 ∧ (date_weekday gy gm gd + 2) % 7 ≤ 6 ∧
      (date_weekday gy gm gd = 5 → (leadingBlankCount cells : Int) = 0) ∧
      (date_weekday gy gm gd = 4 → (leadingBlankCount cells : Int) = 6) :=
  C9_leading_blanks 1403 1 (by decide) (by decide) none

/-- Witness for C10 at Farvardin 1403 with day 15 highlighted. -/
theorem C10_highlight_witness :
    ∃ L cells, get_days_in_shamsi_month 1403 1 = some L ∧
      print_shamsi_calendar 1403 1 (some 15) = some cells ∧
      highlightCount cells = (match (some 15 : Option Int) with
        | some h => if 1 ≤ h ∧ h ≤ L then 1 else 0
        | none => 0) :=
  C10_highlight 1403 1 (by decide) (by decide) (some 15)
